import Mathlib

/-!
Verification development for the JEFF 4.0 data-library generation scripts
(`generate_jeff.py` and `utils.py`).  The Python code is shallowly embedded:
pure string/path manipulations become Lean functions, external library calls
(`openmc.data.zam`, the converters, `hashlib.md5`, `urllib`) become explicit
parameters or abstract outcomes, and each side-effecting routine is modelled
as a function from an explicit state/input to a result record that also
reports the observable effects (files written, log lines printed, whether the
response body was read, and the raised-or-returned outcome as `Except`).
-/

namespace JeffData

/-! ### String primitives (models of the Python `str` operations used) -/

/-- Lexicographic comparison of character lists by code point; models Python
string/`Path` ordering as used by `sorted`. -/
def charsLe : List Char → List Char → Bool
  | [], _ => true
  | _ :: _, [] => false
  | a :: as, b :: bs =>
    if a.toNat < b.toNat then true
    else if b.toNat < a.toNat then false
    else charsLe as bs

/-- Model of `s1 <= s2` on Python strings. -/
def strLe (s t : String) : Bool := charsLe s.data t.data

/-- Model of Python `s.startswith(pre)`. -/
def startswith (s pre : String) : Bool := pre.data.isPrefixOf s.data

/-- Helper for substring search on character lists. -/
def containsSub (needle : List Char) : List Char → Bool
  | [] => needle.isEmpty
  | c :: cs => needle.isPrefixOf (c :: cs) || containsSub needle cs

/-- Model of Python `sub in s` (substring containment). -/
def strContains (s sub : String) : Bool := containsSub sub.data s.data

instance instDecEqExcept {ε α : Type} [DecidableEq ε] [DecidableEq α] :
    DecidableEq (Except ε α) := fun a b =>
  match a, b with
  | Except.error e, Except.error f =>
    if h : e = f then Decidable.isTrue (by rw [h])
    else Decidable.isFalse (by intro hh; cases hh; exact h rfl)
  | Except.error _, Except.ok _ => Decidable.isFalse (by intro hh; cases hh)
  | Except.ok _, Except.error _ => Decidable.isFalse (by intro hh; cases hh)
  | Except.ok x, Except.ok y =>
    if h : x = y then Decidable.isTrue (by rw [h])
    else Decidable.isFalse (by intro hh; cases hh; exact h rfl)

/-! ### `pathlib` fragments: `Path.suffix`, `Path.stem`, `Path.name` -/

/-- Index of the last `'.'` in a character list (Python `str.rfind('.')`),
accumulated while scanning left to right. -/
def lastDotIdxAux : List Char → Nat → Option Nat → Option Nat
  | [], _, acc => acc
  | c :: cs, i, acc => lastDotIdxAux cs (i + 1) (if c = '.' then some i else acc)

/-- Index of the last `'.'` in a character list, if any. -/
def lastDotIdx (cs : List Char) : Option Nat := lastDotIdxAux cs 0 none

/-- Model of `pathlib.PurePath.suffix`: the final component's extension, i.e.
`name[i:]` for `i = name.rfind('.')` when `0 < i < len(name) - 1`, else `""`. -/
def pathSuffix (name : String) : String :=
  let cs := name.data
  match lastDotIdx cs with
  | some i => if 0 < i ∧ i < cs.length - 1 then String.mk (cs.drop i) else ""
  | none => ""

/-- Model of `pathlib.PurePath.stem`: the final component without its suffix. -/
def pathStem (name : String) : String :=
  let cs := name.data
  match lastDotIdx cs with
  | some i => if 0 < i ∧ i < cs.length - 1 then String.mk (cs.take i) else name
  | none => name

/-- A filesystem path, identified (within one directory) by its final
component `name`; this is the observable that `sort_key` and the glob
listings use. -/
structure FsPath where
  name : String
deriving DecidableEq

/-! ### `sort_key` (generate_jeff.py, `main`)

The Python function returns either the tuple `(1000, path)` (for names
starting with `c_`, so that thermal-scattering data sorts after neutron
data) or the `(Z, A, M)` triple `openmc.data.zam(path.stem)`.  `zam` is an
external library function and is a parameter of the embedding.  Python
compares these tuples lexicographically; the comparison is faithful whenever
`Z ≠ 1000` (for a real nuclide `Z ≤ 118`), which the theorems take as a
hypothesis where it matters. -/

/-- Value of `sort_key`: either the sentinel tuple `(1000, path)` or a
`(Z, A, M)` triple from `openmc.data.zam`. -/
inductive SKey
  | sentinel (path : String)
  | zamTriple (z a m : Nat)
deriving DecidableEq

/-- Lexicographic tuple order on `sort_key` values, as Python `sorted`
compares them.  Sentinel-vs-sentinel compares the paths (first components
`1000 = 1000` tie); mixed comparisons are decided by `1000` versus `z`.
At the (never occurring) boundary `z = 1000` the order is completed so as to
stay total and transitive. -/
def SKey.le : SKey → SKey → Prop
  | SKey.sentinel s, SKey.sentinel t => strLe s t = true
  | SKey.sentinel _, SKey.zamTriple z _ _ => 1000 < z
  | SKey.zamTriple z _ _, SKey.sentinel _ => z ≤ 1000
  | SKey.zamTriple z a m, SKey.zamTriple w b n =>
      z < w ∨ (z = w ∧ (a < b ∨ (a = b ∧ m ≤ n)))

instance SKey.le.instDec : (k j : SKey) → Decidable (SKey.le k j)
  | SKey.sentinel s, SKey.sentinel t => inferInstanceAs (Decidable (strLe s t = true))
  | SKey.sentinel _, SKey.zamTriple z _ _ => inferInstanceAs (Decidable (1000 < z))
  | SKey.zamTriple z _ _, SKey.sentinel _ => inferInstanceAs (Decidable (z ≤ 1000))
  | SKey.zamTriple z a m, SKey.zamTriple w b n =>
      inferInstanceAs (Decidable (z < w ∨ (z = w ∧ (a < b ∨ (a = b ∧ m ≤ n)))))

/-- Embedding of `sort_key` from `generate_jeff.py`:
names starting with `c_` get the sentinel key `(1000, path)`, all others the
`openmc.data.zam(path.stem)` triple. -/
def sort_key (zam : String → Nat × Nat × Nat) (p : FsPath) : SKey :=
  if startswith p.name "c_" then
    SKey.sentinel p.name
  else
    SKey.zamTriple (zam (pathStem p.name)).1 (zam (pathStem p.name)).2.1
      (zam (pathStem p.name)).2.2

/-- Ordering on output paths induced by `sort_key`; the relation under which
`sorted(..., key=sort_key)` sorts the registration lists. -/
def regLe (zam : String → Nat × Nat × Nat) (p q : FsPath) : Prop :=
  SKey.le (sort_key zam p) (sort_key zam q)

instance regLe.instDec (zam : String → Nat × Nat × Nat) : DecidableRel (regLe zam) :=
  fun p q => SKey.le.instDec (sort_key zam p) (sort_key zam q)

/-! ### `download` (utils.py)

State: the single local file at the resolved destination, as an optional
byte list.  External collaborators: the remote server (modelled by the body
`remote` it would send, with `response.length` equal to its length) and the
MD5 digest (modelled by the parameter `digest`).  The result records whether
the response body was read, whether the local file was written, and whether
the post-download digest check ran. -/

/-- Observable result of one `download` call. -/
structure DlResult where
  localFile : Option (List Nat)
  bodyRead : Bool
  wrote : Bool
  digestChecked : Bool
  outcome : Except String Unit
deriving DecidableEq

/-- Error message raised on an MD5 mismatch (utils.py, lines 124-128). -/
def md5Message (name : String) : String :=
  "MD5 checksum for " ++ name ++ " does not match. If this is " ++
  "your first time receiving this message, please " ++
  "re-run the script. Otherwise, please contact " ++
  "OpenMC developers by emailing " ++
  "openmc-users@googlegroups.com."

/-- Body of `download` past the already-downloaded check: stream the
response to disk, then verify the checksum if one was supplied. -/
def downloadBody (digest : List Nat → String) (name : String)
    (checksum : Option String) (remote : List Nat) : DlResult :=
  match checksum with
  | none => ⟨some remote, true, true, false, Except.ok ()⟩
  | some c =>
    if digest remote = c then
      ⟨some remote, true, true, true, Except.ok ()⟩
    else
      ⟨some remote, true, true, true, Except.error (md5Message name)⟩

/-- Embedding of `download` from `utils.py`.  `localFile` is the file
already at the resolved destination, if any; a file whose byte length equals
`response.length` short-circuits with no body read, no write, and no digest
check (the early `return local_path` on line 104 precedes the checksum
block). -/
def download (digest : List Nat → String) (name : String)
    (checksum : Option String) (remote : List Nat)
    (localFile : Option (List Nat)) : DlResult :=
  match localFile with
  | some existing =>
    if existing.length = remote.length then
      ⟨some existing, false, false, false, Except.ok ()⟩
    else
      downloadBody digest name checksum remote
  | none => downloadBody digest name checksum remote

/-! ### `extract` (utils.py) -/

/-- The suffixes routed to `tarfile.open` (utils.py, line 167). -/
def tarSuffixes : List String := [".gz", ".bz2", ".xz", ".lzma", ".zst", ".tgz", ".tar"]

/-- Observable result of one `extract` call: the extraction directory is
created up front in every case; `created` lists the member files written
into it; `deletedSource` reports whether the archive was unlinked. -/
structure ExtractResult where
  madeExtractionDir : Bool
  created : List String
  deletedSource : Bool
  outcome : Except String Unit
deriving DecidableEq

/-- Embedding of `extract` from `utils.py`: dispatch on `path.suffix`;
`.zip` and the tar-like suffixes extract all archive `members`; any other
suffix raises `ValueError` before anything is extracted, and the source
archive is only deleted after a successful extraction. -/
def extract (name : String) (members : List String)
    (del_compressed_file : Bool) : ExtractResult :=
  let sfx := pathSuffix name
  if sfx = ".zip" then
    ⟨true, members, del_compressed_file, Except.ok ()⟩
  else if tarSuffixes.contains sfx then
    ⟨true, members, del_compressed_file, Except.ok ()⟩
  else
    ⟨true, [], false,
      Except.error ("File type not currently supported by extraction function " ++ name)⟩

/-! ### `process_neutron` and `process_thermal` (utils.py)

The external converters (`IncidentNeutron.from_njoy`,
`ThermalScattering.from_endf`, `ThermalScattering.from_njoy`) are
parameters: a conversion either raises (`Except.error`) or returns the
produced material's canonical name (`data.name`), from which the output
file `<name>.h5` is written.  Log lines model the `print` calls. -/

/-- Observable result of one converter entry point. -/
structure ConvResult where
  log : List String
  written : List String
  outcome : Except String Unit
deriving DecidableEq

/-- Embedding of `process_neutron` from `utils.py`: print the banner, run
the conversion; on an exception print the offending path with the error and
re-raise; on success write `<data.name>.h5`. -/
def process_neutron (path : String) (convert : Except String String) : ConvResult :=
  let log0 := ["Converting: " ++ path]
  match convert with
  | Except.error e => ⟨log0 ++ [path ++ " " ++ e], [], Except.error e⟩
  | Except.ok dataName =>
      ⟨log0 ++ ["Writing " ++ dataName ++ ".h5 ..."], [dataName ++ ".h5"], Except.ok ()⟩

/-- Outcome of the probe call `ThermalScattering.from_endf(path_thermal)`
run under `warnings.catch_warnings(action='error', category=UserWarning)`:
either it finishes silently, or its first `UserWarning` escalates to an
exception carrying `msg`, or it raises some non-`UserWarning` exception. -/
inductive ProbeOutcome
  | ok
  | userWarning (msg : String)
  | otherError (e : String)
deriving DecidableEq

/-- Value of the `divide_incoherent_elastic` local after the probe block of
`process_thermal` (utils.py, lines 41-47): set exactly when the escalated
`UserWarning`'s text contains `divide_incoherent_elastic`. -/
def divideFlag : ProbeOutcome → Bool
  | ProbeOutcome.userWarning msg => strContains msg "divide_incoherent_elastic"
  | _ => false

/-- Observable result of `process_thermal`; `flagUsed` records the
`divide_incoherent_elastic` argument the real conversion was invoked with
(`none` when the probe's non-`UserWarning` exception aborts the call before
the conversion). -/
structure ThermalResult where
  log : List String
  written : List String
  flagUsed : Option Bool
  outcome : Except String Unit
deriving DecidableEq

/-- Embedding of `process_thermal` from `utils.py`: probe the thermal
evaluation under warnings-as-errors to set the flag (a `UserWarning` is
caught there, any other exception propagates), then run the real conversion
with that flag; on an exception print both paths with the error and
re-raise; on success write `<data.name>.h5`. -/
def process_thermal (path_neutron path_thermal : String)
    (probe : ProbeOutcome) (convert : Bool → Except String String) : ThermalResult :=
  let log0 := ["Converting: " ++ path_thermal]
  match probe with
  | ProbeOutcome.otherError e => ⟨log0, [], none, Except.error e⟩
  | p =>
    let flag := divideFlag p
    match convert flag with
    | Except.error e =>
        ⟨log0 ++ [path_neutron ++ " " ++ path_thermal ++ " " ++ e], [], some flag,
          Except.error e⟩
    | Except.ok dataName =>
        ⟨log0 ++ ["Writing " ++ dataName ++ ".h5 ..."], [dataName ++ ".h5"], some flag,
          Except.ok ()⟩

/-! ### `fix_missing_tpid` (utils.py)

The filesystem is an association list from path to text content.  The
managed block is a parameter that observes the yielded temporary path and
the filesystem and exits either normally or with an exception. -/

/-- Association-list filesystem: path to text content. -/
abbrev FS : Type := List (String × String)

/-- Model of reading a file (`Path.read_text`). -/
def fsRead (fs : FS) (p : String) : Option String :=
  match List.find? (fun e => decide (e.1 = p)) fs with
  | some e => some e.2
  | none => none

/-- Model of creating a fresh file with the given content
(`tempfile.NamedTemporaryFile(delete=False)` plus the writes). -/
def fsCreate (fs : FS) (p v : String) : FS := (p, v) :: fs

/-- Model of `Path.unlink`. -/
def fsUnlink (fs : FS) (p : String) : FS :=
  List.filter (fun e => decide (e.1 ≠ p)) fs

/-- The TPID header line written first into the temporary file:
`" " * 69 + "1 0  0    0\n"`. -/
def tpidLine : String := String.mk (List.replicate 69 ' ') ++ "1 0  0    0\n"

/-- Embedding of the `fix_missing_tpid` context manager from `utils.py`:
create a named temporary file holding the TPID line followed by the original
file's text, run the managed block on it, and unlink the temporary file in a
`finally` block so it is removed whether the block returns or raises.  If
the original path cannot be read, `read_text` raises inside the
`NamedTemporaryFile` block and the partially written temporary file is left
behind (the `try/finally` has not been entered yet). -/
def fix_missing_tpid (fs : FS) (path tempName : String)
    (block : String → FS → Except String Unit) : FS × Except String Unit :=
  match fsRead fs path with
  | none => (fsCreate fs tempName tpidLine, Except.error "FileNotFoundError")
  | some orig =>
    let fs1 := fsCreate fs tempName (tpidLine ++ orig)
    (fsUnlink fs1 tempName, block tempName fs1)

/-! ### Orchestrator fragments (`generate_jeff.py`, `main`)

A worker-pool job's outcome is the `Except` result of its converter call.
`AsyncResult.wait` blocks until the outcome is available and returns `None`;
unlike `AsyncResult.get`, it does not re-raise the job's exception. -/

/-- Model of `multiprocessing.pool.AsyncResult.wait()`: the job outcome is
available but discarded, and nothing is re-raised. -/
def asyncResultWait (_ : Except String Unit) : Unit := ()

/-- Embedding of the result-collection loop `for r in results: r.wait()`
(generate_jeff.py, lines 343-344 and 363-364). -/
def collect_results : List (Except String Unit) → Except String Unit
  | [] => Except.ok ()
  | r :: rs =>
    let _ := asyncResultWait r
    collect_results rs

/-- Embedding of one neutron/thermal conversion stage: submit the jobs,
collect their results with `wait`, then register the sorted `*.h5` glob of
the stage's output directory (generate_jeff.py, lines 334-347 / 354-367). -/
def run_conversion_stage (zam : String → Nat × Nat × Nat)
    (jobs : List (Except String Unit)) (h5files : List FsPath) :
    Except String (List FsPath) :=
  match collect_results jobs with
  | Except.error e => Except.error e
  | Except.ok _ => Except.ok (List.insertionSort (regLe zam) h5files)

/-- Registration sequence of `library` over a full run: the sorted neutron
listing, then the sorted thermal listing, then the per-pair photon
registrations in conversion order (generate_jeff.py, lines 346-347, 366-367
and 372-386). -/
def main_registrations (zam : String → Nat × Nat × Nat)
    (neutron_h5 thermal_h5 photon_h5 : List FsPath) : List FsPath :=
  List.insertionSort (regLe zam) neutron_h5 ++
    List.insertionSort (regLe zam) thermal_h5 ++ photon_h5

/-- Ordering used by plain `sorted(...)` over the photon file listings. -/
def strLeRel (a b : String) : Prop := strLe a b = true

instance strLeRel.instDec : DecidableRel strLeRel :=
  fun a b => inferInstanceAs (Decidable (strLe a b = true))

/-- Embedding of the photon stage (generate_jeff.py, lines 372-386): zip
the two sorted listings positionally and, sequentially in the orchestrator
process, convert each pair and register one `<data.name>.h5` file for it.
`photonName` models `IncidentPhoton.from_endf(...).name`. -/
def photon_stage (photo_files atom_files : List String)
    (photonName : String → String → String) : List String :=
  ((List.insertionSort strLeRel photo_files).zip
      (List.insertionSort strLeRel atom_files)).map
    (fun pr => photonName pr.1 pr.2 ++ ".h5")

/-- Concrete stand-in for `openmc.data.zam` used in closed evaluations:
`Z` is the stem length, far below the `1000` sentinel. -/
def zam0 : String → Nat × Nat × Nat := fun s => (s.length, 0, 0)

/-- Concrete stand-in for an MD5 digest used in closed evaluations. -/
def digest0 (l : List Nat) : String := Nat.repr (l.foldl (fun a b => a + b) 0)

/-! ### Order theory for the sort relations -/

theorem charsLe_total : ∀ as bs : List Char, charsLe as bs = true ∨ charsLe bs as = true
  | [], _ => Or.inl rfl
  | _ :: _, [] => Or.inr rfl
  | a :: as, b :: bs => by
    simp only [charsLe]
    rcases Nat.lt_trichotomy a.toNat b.toNat with h | h | h
    · left
      simp [h]
    · have hba : ¬ b.toNat < a.toNat := by omega
      have hab : ¬ a.toNat < b.toNat := by omega
      simp only [if_neg hab, if_neg hba]
      exact charsLe_total as bs
    · right
      simp [h]

theorem charsLe_trans :
    ∀ as bs cs : List Char,
      charsLe as bs = true → charsLe bs cs = true → charsLe as cs = true
  | [], _, _ => fun _ _ => rfl
  | _ :: _, [], _ => fun h _ => by simp [charsLe] at h
  | _ :: _, _ :: _, [] => fun _ h => by simp [charsLe] at h
  | a :: as, b :: bs, c :: cs => fun h1 h2 => by
    simp only [charsLe] at h1 h2 ⊢
    rcases Nat.lt_trichotomy a.toNat b.toNat with hab | hab | hab <;>
      rcases Nat.lt_trichotomy b.toNat c.toNat with hbc | hbc | hbc <;>
      simp only [if_pos, if_neg, hab, hbc] at h1 h2 ⊢ <;>
      first
        | rfl
        | omega
        | (split_ifs at h1 h2 ⊢ <;>
            first
              | rfl
              | omega
              | exact h1
              | exact h2
              | exact charsLe_trans as bs cs h1 h2)

theorem strLe_total (s t : String) : strLe s t = true ∨ strLe t s = true :=
  charsLe_total s.data t.data

theorem strLe_trans {s t u : String} (h1 : strLe s t = true) (h2 : strLe t u = true) :
    strLe s u = true :=
  charsLe_trans s.data t.data u.data h1 h2

theorem SKey.le_total : ∀ k j : SKey, SKey.le k j ∨ SKey.le j k
  | SKey.sentinel s, SKey.sentinel t => strLe_total s t
  | SKey.sentinel _, SKey.zamTriple z _ _ => by simp only [SKey.le]; omega
  | SKey.zamTriple z _ _, SKey.sentinel _ => by simp only [SKey.le]; omega
  | SKey.zamTriple _ _ _, SKey.zamTriple _ _ _ => by simp only [SKey.le]; omega

theorem SKey.le_trans :
    ∀ k j i : SKey, SKey.le k j → SKey.le j i → SKey.le k i
  | SKey.sentinel _, SKey.sentinel _, SKey.sentinel _ => fun h1 h2 => strLe_trans h1 h2
  | SKey.sentinel _, SKey.sentinel _, SKey.zamTriple _ _ _ => by
      simp only [SKey.le]; omega
  | SKey.sentinel _, SKey.zamTriple _ _ _, SKey.sentinel _ => by
      simp only [SKey.le]; omega
  | SKey.sentinel _, SKey.zamTriple _ _ _, SKey.zamTriple _ _ _ => by
      simp only [SKey.le]; omega
  | SKey.zamTriple _ _ _, SKey.sentinel _, SKey.sentinel _ => by
      simp only [SKey.le]; omega
  | SKey.zamTriple _ _ _, SKey.sentinel _, SKey.zamTriple _ _ _ => by
      simp only [SKey.le]; omega
  | SKey.zamTriple _ _ _, SKey.zamTriple _ _ _, SKey.sentinel _ => by
      simp only [SKey.le]; omega
  | SKey.zamTriple _ _ _, SKey.zamTriple _ _ _, SKey.zamTriple _ _ _ => by
      simp only [SKey.le]; omega

instance regLe.instTotal (zam : String → Nat × Nat × Nat) : IsTotal FsPath (regLe zam) :=
  ⟨fun p q => SKey.le_total (sort_key zam p) (sort_key zam q)⟩

instance regLe.instTrans (zam : String → Nat × Nat × Nat) : IsTrans FsPath (regLe zam) :=
  ⟨fun _ _ _ h1 h2 => SKey.le_trans _ _ _ h1 h2⟩

/-! ### Helper lemmas -/

theorem collect_results_ok (jobs : List (Except String Unit)) :
    collect_results jobs = Except.ok () := by
  induction jobs with
  | nil => rfl
  | cons r rs ih => simpa [collect_results, asyncResultWait] using ih

/-! ### Claims -/

/-- Claim C1, counterexample.  With a single submitted job that raised
(`Except.error "njoy failed"`), the claim says the error is observed during
result collection and aborts the run; instead the stage's `wait`-based
collection observes nothing and the stage completes normally, returning the
registered listing. -/
theorem claim1_counterexample :
    run_conversion_stage zam0 [Except.error "njoy failed"] [FsPath.mk "H1.h5"] =
      Except.ok [FsPath.mk "H1.h5"] := rfl

/-- Claim C1, amended.  `AsyncResult.wait` does not re-raise a job's
exception, so the result-collection loop of the neutron and thermal stages
always finishes with no error observed, whatever the job outcomes were: the
run is never aborted at job-collection time, and the stage goes on to
register the sorted output listing.  (Each failure is only printed from
inside the worker, by `process_neutron`/`process_thermal`.) -/
theorem claim1_amended (zam : String → Nat × Nat × Nat)
    (jobs : List (Except String Unit)) (h5files : List FsPath) :
    collect_results jobs = Except.ok () ∧
    run_conversion_stage zam jobs h5files =
      Except.ok (List.insertionSort (regLe zam) h5files) := by
  have hc := collect_results_ok jobs
  exact ⟨hc, by simp [run_conversion_stage, hc]⟩

/-- Claim C2, code-bug evaluation.  First call with a wrong checksum: the
body is downloaded, the digest check runs and raises the MD5 `OSError`
whose message instructs the user to re-run the script, and the corrupt
full-length file is left on disk.  Second identical call: the file's byte
length matches `response.length`, so the call returns it immediately — no
body read, no write, and (contrary to the claim and to the first call's own
error message) no digest re-check. -/
theorem claim2_checksum_retry_bug :
    (download digest0 "JEFF40-Evaluations-Neutron-593.zip" (some "deadbeef")
        [1, 2, 3] none).outcome =
      Except.error (md5Message "JEFF40-Evaluations-Neutron-593.zip") ∧
    (download digest0 "JEFF40-Evaluations-Neutron-593.zip" (some "deadbeef")
        [1, 2, 3] none).localFile = some [1, 2, 3] ∧
    (download digest0 "JEFF40-Evaluations-Neutron-593.zip" (some "deadbeef")
        [1, 2, 3] none).digestChecked = true ∧
    download digest0 "JEFF40-Evaluations-Neutron-593.zip" (some "deadbeef")
        [1, 2, 3] (some [1, 2, 3]) =
      ⟨some [1, 2, 3], false, false, false, Except.ok ()⟩ := by
  refine ⟨?_, ?_, ?_, ?_⟩ <;> rfl

/-- Claim C3: when a local file with byte length equal to the remote
`Content-Length` already exists at the resolved destination, `download`
reads no response body, writes nothing, leaves the file as it is, and
returns the existing path. -/
theorem claim3_skip_existing (digest : List Nat → String) (name : String)
    (checksum : Option String) (remote existing : List Nat)
    (h : existing.length = remote.length) :
    download digest name checksum remote (some existing) =
      ⟨some existing, false, false, false, Except.ok ()⟩ := by
  simp [download, h]

theorem claim3_witness :
    ([9, 9] : List Nat).length = ([3, 4] : List Nat).length ∧
    download digest0 "JEFF40-Evaluations-TSL.zip" (some "13d22cd59f83368885ab2d86300b470a")
        [3, 4] (some [9, 9]) =
      ⟨some [9, 9], false, false, false, Except.ok ()⟩ :=
  ⟨rfl, claim3_skip_existing digest0 "JEFF40-Evaluations-TSL.zip"
    (some "13d22cd59f83368885ab2d86300b470a") [3, 4] [9, 9] rfl⟩

/-- Claim C4: `sort_key` places every `c_`-prefixed name strictly after
every non-`c_` name, whatever their alphabetical order, as long as the
`zam` triple's `Z` component stays below the `1000` sentinel (true of every
real nuclide, whose `Z` is at most 118). -/
theorem claim4_sort_key (zam : String → Nat × Nat × Nat) (p q : FsPath)
    (hp : startswith p.name "c_" = true) (hq : startswith q.name "c_" = false)
    (hz : (zam (pathStem q.name)).1 < 1000) :
    regLe zam q p ∧ ¬ regLe zam p q := by
  have e1 : sort_key zam p = SKey.sentinel p.name := by simp [sort_key, hp]
  have e2 : sort_key zam q =
      SKey.zamTriple (zam (pathStem q.name)).1 (zam (pathStem q.name)).2.1
        (zam (pathStem q.name)).2.2 := by
    simp [sort_key, hq]
  constructor
  · simp only [regLe, e1, e2, SKey.le]
    omega
  · simp only [regLe, e1, e2, SKey.le]
    omega

theorem claim4_witness :
    startswith "c_H_in_H2O" "c_" = true ∧
    startswith "n_1-H-001g" "c_" = false ∧
    (zam0 (pathStem "n_1-H-001g")).1 < 1000 ∧
    (regLe zam0 (FsPath.mk "n_1-H-001g") (FsPath.mk "c_H_in_H2O") ∧
      ¬ regLe zam0 (FsPath.mk "c_H_in_H2O") (FsPath.mk "n_1-H-001g")) :=
  ⟨by decide, by decide, by decide,
    claim4_sort_key zam0 (FsPath.mk "c_H_in_H2O") (FsPath.mk "n_1-H-001g")
      (by decide) (by decide) (by decide)⟩

/-- Claim C6: on any suffix other than `.zip` and the tar-like set
`.gz/.bz2/.xz/.lzma/.zst/.tgz/.tar`, `extract` raises the
unsupported-format `ValueError`, extracts no member file, and does not
delete the source archive. -/
theorem claim6_extract_unsupported (name : String) (members : List String)
    (del : Bool)
    (h1 : pathSuffix name ≠ ".zip")
    (h2 : tarSuffixes.contains (pathSuffix name) = false) :
    (extract name members del).created = [] ∧
    (extract name members del).outcome =
      Except.error ("File type not currently supported by extraction function " ++ name) := by
  have h2m : pathSuffix name ∉ tarSuffixes := by simpa using h2
  simp [extract, h1, h2m]

theorem claim6_witness :
    pathSuffix "archive.rar" ≠ ".zip" ∧
    tarSuffixes.contains (pathSuffix "archive.rar") = false ∧
    ((extract "archive.rar" ["member.endf"] false).created = [] ∧
      (extract "archive.rar" ["member.endf"] false).outcome =
        Except.error
          ("File type not currently supported by extraction function " ++ "archive.rar")) :=
  ⟨by decide, by decide,
    claim6_extract_unsupported "archive.rar" ["member.endf"] false (by decide) (by decide)⟩

theorem process_thermal_flagUsed (pn pt : String) (probe : ProbeOutcome)
    (convert : Bool → Except String String) (h : ∀ e, probe ≠ ProbeOutcome.otherError e) :
    (process_thermal pn pt probe convert).flagUsed = some (divideFlag probe) := by
  cases probe with
  | otherError e => exact absurd rfl (h e)
  | ok =>
    rcases hc : convert (divideFlag ProbeOutcome.ok) with e | n <;>
      simp [process_thermal, hc]
  | userWarning m =>
    rcases hc : convert (divideFlag (ProbeOutcome.userWarning m)) with e | n <;>
      simp [process_thermal, hc]

/-- Claim C5: whenever the probe does not abort `process_thermal` with a
non-`UserWarning` exception, the real conversion is invoked exactly once
with the `divide_incoherent_elastic` flag, and that flag is `true` exactly
when the probe's escalated `UserWarning` message contains the text
`divide_incoherent_elastic`, and `false` otherwise. -/
theorem claim5_thermal_flag (pn pt : String) (probe : ProbeOutcome)
    (convert : Bool → Except String String)
    (h : ∀ e, probe ≠ ProbeOutcome.otherError e) :
    ∃ b, (process_thermal pn pt probe convert).flagUsed = some b ∧
      (b = true ↔ ∃ msg, probe = ProbeOutcome.userWarning msg ∧
        strContains msg "divide_incoherent_elastic" = true) := by
  refine ⟨divideFlag probe, process_thermal_flagUsed pn pt probe convert h, ?_⟩
  cases probe with
  | otherError e => exact absurd rfl (h e)
  | ok => simp [divideFlag]
  | userWarning m =>
    simp only [divideFlag]
    constructor
    · intro hb
      exact ⟨m, rfl, hb⟩
    · rintro ⟨msg, hmsg, hc⟩
      cases hmsg
      exact hc

theorem claim5_witness :
    (∀ e, ProbeOutcome.userWarning
        "UserWarning: divide_incoherent_elastic should be set to True" ≠
      ProbeOutcome.otherError e) ∧
    ∃ b, (process_thermal "n_1-H-001g.jeff" "tsl_H_H2O.jeff"
        (ProbeOutcome.userWarning
          "UserWarning: divide_incoherent_elastic should be set to True")
        (fun _ => Except.ok "c_H_in_H2O")).flagUsed = some b ∧
      (b = true ↔ ∃ msg,
        ProbeOutcome.userWarning
            "UserWarning: divide_incoherent_elastic should be set to True" =
          ProbeOutcome.userWarning msg ∧
        strContains msg "divide_incoherent_elastic" = true) :=
  ⟨fun _ hh => ProbeOutcome.noConfusion hh,
    claim5_thermal_flag "n_1-H-001g.jeff" "tsl_H_H2O.jeff" _ _
      (fun _ hh => ProbeOutcome.noConfusion hh)⟩

/-- Claim C7: when the converter call raises, `process_neutron` logs the
offending path together with the error and re-raises it, and
`process_thermal` logs both paths together with the error and re-raises it;
in both functions the failure propagates as the result. -/
theorem claim7_log_reraise (path pn pt e : String)
    (convN : Except String String) (convT : Bool → Except String String)
    (probe : ProbeOutcome)
    (hN : convN = Except.error e) (hT : ∀ b, convT b = Except.error e)
    (hp : ∀ x, probe ≠ ProbeOutcome.otherError x) :
    ((process_neutron path convN).outcome = Except.error e ∧
      (path ++ " " ++ e) ∈ (process_neutron path convN).log) ∧
    ((process_thermal pn pt probe convT).outcome = Except.error e ∧
      (pn ++ " " ++ pt ++ " " ++ e) ∈ (process_thermal pn pt probe convT).log) := by
  subst hN
  refine ⟨by simp [process_neutron], ?_⟩
  cases probe with
  | otherError x => exact absurd rfl (hp x)
  | ok => simp [process_thermal, hT]
  | userWarning m => simp [process_thermal, hT]

theorem claim7_witness :
    ((process_neutron "n_1-H-001g.jeff" (Except.error "njoy failed")).outcome =
        Except.error "njoy failed" ∧
      ("n_1-H-001g.jeff" ++ " " ++ "njoy failed") ∈
        (process_neutron "n_1-H-001g.jeff" (Except.error "njoy failed")).log) ∧
    ((process_thermal "n_1-H-001g.jeff" "tsl_H_H2O.jeff" ProbeOutcome.ok
          (fun _ => Except.error "njoy failed")).outcome =
        Except.error "njoy failed" ∧
      ("n_1-H-001g.jeff" ++ " " ++ "tsl_H_H2O.jeff" ++ " " ++ "njoy failed") ∈
        (process_thermal "n_1-H-001g.jeff" "tsl_H_H2O.jeff" ProbeOutcome.ok
          (fun _ => Except.error "njoy failed")).log) :=
  claim7_log_reraise "n_1-H-001g.jeff" "n_1-H-001g.jeff" "tsl_H_H2O.jeff" "njoy failed"
    _ _ ProbeOutcome.ok rfl (fun _ => rfl) (fun _ hh => ProbeOutcome.noConfusion hh)

theorem fsRead_none_forall {fs : FS} {p : String} (h : fsRead fs p = none) :
    ∀ e ∈ fs, e.1 ≠ p := by
  intro e he
  unfold fsRead at h
  rcases hf : List.find? (fun x => decide (x.1 = p)) fs with _ | x
  · have := List.find?_eq_none.mp hf e he
    simpa using this
  · rw [hf] at h
    cases h

/-- Claim C10: with the original evaluation present and the temporary name
fresh, `fix_missing_tpid` runs the managed block on a temporary file whose
content is the TPID line followed by the original file's full text, the
original file still reads the same while the block runs, and for every
block — whether it returns or raises — the context manager hands back the
block's own outcome with the temporary file unlinked, leaving the
filesystem exactly as it started. -/
theorem claim10_fix_missing_tpid (fs : FS) (path tempName orig : String)
    (block : String → FS → Except String Unit)
    (horig : fsRead fs path = some orig)
    (hfresh : fsRead fs tempName = none) :
    fsRead (fsCreate fs tempName (tpidLine ++ orig)) tempName = some (tpidLine ++ orig) ∧
    fsRead (fsCreate fs tempName (tpidLine ++ orig)) path = some orig ∧
    fix_missing_tpid fs path tempName block =
      (fs, block tempName (fsCreate fs tempName (tpidLine ++ orig))) := by
  have hne : path ≠ tempName := by
    intro hh
    rw [hh, hfresh] at horig
    cases horig
  refine ⟨?_, ?_, ?_⟩
  · simp [fsRead, fsCreate, List.find?]
  · simp only [fsRead, fsCreate, List.find?]
    have : decide (tempName = path) = false := by
      simp [Ne.symm hne]
    rw [this]
    simpa [fsRead] using horig
  · unfold fix_missing_tpid
    rw [horig]
    dsimp only
    have hdrop : fsUnlink (fsCreate fs tempName (tpidLine ++ orig)) tempName = fs := by
      unfold fsUnlink fsCreate
      simp only [List.filter]
      have : decide (tempName ≠ tempName) = false := by simp
      rw [this]
      rw [List.filter_eq_self.mpr]
      intro e he
      exact decide_eq_true (fsRead_none_forall hfresh e he)
    rw [hdrop]

theorem claim10_witness :
    fsRead [("n_1-H-001g.jeff", "ENDF TEXT")] "n_1-H-001g.jeff" = some "ENDF TEXT" ∧
    fsRead [("n_1-H-001g.jeff", "ENDF TEXT")] "tmpabc123" = none ∧
    (fsRead (fsCreate [("n_1-H-001g.jeff", "ENDF TEXT")] "tmpabc123"
        (tpidLine ++ "ENDF TEXT")) "tmpabc123" = some (tpidLine ++ "ENDF TEXT") ∧
      fsRead (fsCreate [("n_1-H-001g.jeff", "ENDF TEXT")] "tmpabc123"
        (tpidLine ++ "ENDF TEXT")) "n_1-H-001g.jeff" = some "ENDF TEXT" ∧
      fix_missing_tpid [("n_1-H-001g.jeff", "ENDF TEXT")] "n_1-H-001g.jeff" "tmpabc123"
          (fun _ _ => Except.error "conversion raised") =
        ([("n_1-H-001g.jeff", "ENDF TEXT")],
          (fun _ _ => Except.error "conversion raised") "tmpabc123"
            (fsCreate [("n_1-H-001g.jeff", "ENDF TEXT")] "tmpabc123"
              (tpidLine ++ "ENDF TEXT")))) :=
  ⟨rfl, rfl,
    claim10_fix_missing_tpid [("n_1-H-001g.jeff", "ENDF TEXT")] "n_1-H-001g.jeff"
      "tmpabc123" "ENDF TEXT" (fun _ _ => Except.error "conversion raised") rfl rfl⟩

/-- Claim C8: over a full run with duplicate-free, pairwise-disjoint output
listings (a filesystem glob of three distinct directories), the
registration sequence contains every converted file exactly once and no
file twice, the neutron-plus-thermal portion is sorted by the
nuclide/mass key, and every thermal entry (sentinel key) is registered
after — and compares at least as large as — every neutron entry, provided
`zam` keeps the `Z` component of the neutron stems below the `1000`
sentinel. -/
theorem claim8_registration (zam : String → Nat × Nat × Nat)
    (nh th ph : List FsPath)
    (h1 : nh.Nodup) (h2 : th.Nodup) (h3 : ph.Nodup)
    (d12 : ∀ p ∈ nh, p ∉ th) (d13 : ∀ p ∈ nh, p ∉ ph) (d23 : ∀ p ∈ th, p ∉ ph)
    (hn : ∀ p ∈ nh, startswith p.name "c_" = false)
    (hz : ∀ p ∈ nh, (zam (pathStem p.name)).1 < 1000)
    (ht : ∀ p ∈ th, startswith p.name "c_" = true) :
    (main_registrations zam nh th ph).Nodup ∧
    List.Sorted (regLe zam)
      (List.insertionSort (regLe zam) nh ++ List.insertionSort (regLe zam) th) ∧
    (List.insertionSort (regLe zam) nh).Perm nh ∧
    (List.insertionSort (regLe zam) th).Perm th ∧
    (∀ p ∈ List.insertionSort (regLe zam) nh,
      ∀ q ∈ List.insertionSort (regLe zam) th, regLe zam p q) := by
  have permN := List.perm_insertionSort (regLe zam) nh
  have permT := List.perm_insertionSort (regLe zam) th
  have memN : ∀ {x : FsPath}, x ∈ List.insertionSort (regLe zam) nh ↔ x ∈ nh :=
    fun {x} => permN.mem_iff
  have memT : ∀ {x : FsPath}, x ∈ List.insertionSort (regLe zam) th ↔ x ∈ th :=
    fun {x} => permT.mem_iff
  have cross : ∀ p ∈ List.insertionSort (regLe zam) nh,
      ∀ q ∈ List.insertionSort (regLe zam) th, regLe zam p q := by
    intro p hpA q hqB
    have hpn : p ∈ nh := memN.mp hpA
    have hqt : q ∈ th := memT.mp hqB
    have e1 : sort_key zam p =
        SKey.zamTriple (zam (pathStem p.name)).1 (zam (pathStem p.name)).2.1
          (zam (pathStem p.name)).2.2 := by
      simp [sort_key, hn p hpn]
    have e2 : sort_key zam q = SKey.sentinel q.name := by
      simp [sort_key, ht q hqt]
    have hzp := hz p hpn
    simp only [regLe, e1, e2, SKey.le]
    omega
  have sortedN : List.Sorted (regLe zam) (List.insertionSort (regLe zam) nh) :=
    List.sorted_insertionSort (regLe zam) nh
  have sortedT : List.Sorted (regLe zam) (List.insertionSort (regLe zam) th) :=
    List.sorted_insertionSort (regLe zam) th
  have sortedNT : List.Sorted (regLe zam)
      (List.insertionSort (regLe zam) nh ++ List.insertionSort (regLe zam) th) :=
    List.pairwise_append.mpr ⟨sortedN, sortedT, cross⟩
  have nodupN : (List.insertionSort (regLe zam) nh).Nodup := permN.symm.nodup h1
  have nodupT : (List.insertionSort (regLe zam) th).Nodup := permT.symm.nodup h2
  have nodupNT : (List.insertionSort (regLe zam) nh ++
      List.insertionSort (regLe zam) th).Nodup := by
    rw [List.nodup_append]
    exact ⟨nodupN, nodupT, fun x hx hx2 => d12 x (memN.mp hx) (memT.mp hx2)⟩
  have nodupAll : (main_registrations zam nh th ph).Nodup := by
    unfold main_registrations
    rw [List.nodup_append]
    refine ⟨nodupNT, h3, ?_⟩
    intro x hx hxp
    rcases List.mem_append.mp hx with hxn | hxt
    · exact d13 x (memN.mp hxn) hxp
    · exact d23 x (memT.mp hxt) hxp
  exact ⟨nodupAll, sortedNT, permN, permT, cross⟩

theorem claim8_witness :
    ([FsPath.mk "H1.h5", FsPath.mk "O16.h5"] : List FsPath).Nodup ∧
    ([FsPath.mk "c_H_in_H2O.h5"] : List FsPath).Nodup ∧
    ([FsPath.mk "Zn.h5"] : List FsPath).Nodup ∧
    (∀ p ∈ [FsPath.mk "H1.h5", FsPath.mk "O16.h5"], p ∉ [FsPath.mk "c_H_in_H2O.h5"]) ∧
    (∀ p ∈ [FsPath.mk "H1.h5", FsPath.mk "O16.h5"], p ∉ [FsPath.mk "Zn.h5"]) ∧
    (∀ p ∈ [FsPath.mk "c_H_in_H2O.h5"], p ∉ [FsPath.mk "Zn.h5"]) ∧
    (∀ p ∈ [FsPath.mk "H1.h5", FsPath.mk "O16.h5"], startswith p.name "c_" = false) ∧
    (∀ p ∈ [FsPath.mk "H1.h5", FsPath.mk "O16.h5"], (zam0 (pathStem p.name)).1 < 1000) ∧
    (∀ p ∈ [FsPath.mk "c_H_in_H2O.h5"], startswith p.name "c_" = true) ∧
    ((main_registrations zam0 [FsPath.mk "H1.h5", FsPath.mk "O16.h5"]
        [FsPath.mk "c_H_in_H2O.h5"] [FsPath.mk "Zn.h5"]).Nodup ∧
      List.Sorted (regLe zam0)
        (List.insertionSort (regLe zam0) [FsPath.mk "H1.h5", FsPath.mk "O16.h5"] ++
          List.insertionSort (regLe zam0) [FsPath.mk "c_H_in_H2O.h5"]) ∧
      (List.insertionSort (regLe zam0) [FsPath.mk "H1.h5", FsPath.mk "O16.h5"]).Perm
        [FsPath.mk "H1.h5", FsPath.mk "O16.h5"] ∧
      (List.insertionSort (regLe zam0) [FsPath.mk "c_H_in_H2O.h5"]).Perm
        [FsPath.mk "c_H_in_H2O.h5"] ∧
      (∀ p ∈ List.insertionSort (regLe zam0) [FsPath.mk "H1.h5", FsPath.mk "O16.h5"],
        ∀ q ∈ List.insertionSort (regLe zam0) [FsPath.mk "c_H_in_H2O.h5"],
          regLe zam0 p q)) :=
  ⟨by decide, by decide, by decide, by decide, by decide, by decide, by decide,
    by decide, by decide,
    claim8_registration zam0 [FsPath.mk "H1.h5", FsPath.mk "O16.h5"]
      [FsPath.mk "c_H_in_H2O.h5"] [FsPath.mk "Zn.h5"]
      (by decide) (by decide) (by decide) (by decide) (by decide) (by decide)
      (by decide) (by decide) (by decide)⟩

theorem zip_getElem?_of_lt {α β : Type} :
    ∀ (as : List α) (bs : List β) (i : Nat), i < as.length → i < bs.length →
      ∃ a b, as[i]? = some a ∧ bs[i]? = some b ∧ (as.zip bs)[i]? = some (a, b)
  | [], _, i => by intro h _; simp at h
  | _ :: _, [], i => by intro _ h; simp at h
  | a :: as, b :: bs, 0 => fun _ _ => ⟨a, b, by simp, by simp, by simp⟩
  | a :: as, b :: bs, i + 1 => fun h1 h2 => by
    have hr := zip_getElem?_of_lt as bs i (by simpa using h1) (by simpa using h2)
    simpa using hr

/-- Claim C9: the photon stage sorts the photoatomic and atomic-relaxation
listings, pairs them positionally (the i-th with the i-th), and produces
and registers exactly one output file per pair, sequentially in pair
order; with listings of equal cardinality the number of pairs (and of
registrations) equals that common length. -/
theorem claim9_photon_pairing (photo atom : List String)
    (photonName : String → String → String)
    (h : photo.length = atom.length) :
    (photon_stage photo atom photonName).length = photo.length ∧
    ∀ i, i < photo.length →
      ∃ p a, (List.insertionSort strLeRel photo)[i]? = some p ∧
        (List.insertionSort strLeRel atom)[i]? = some a ∧
        (photon_stage photo atom photonName)[i]? = some (photonName p a ++ ".h5") := by
  have lp : (List.insertionSort strLeRel photo).length = photo.length :=
    (List.perm_insertionSort strLeRel photo).length_eq
  have la : (List.insertionSort strLeRel atom).length = atom.length :=
    (List.perm_insertionSort strLeRel atom).length_eq
  constructor
  · simp [photon_stage, lp, la, h]
  · intro i hi
    obtain ⟨p, a, hp, ha, hz⟩ :=
      zip_getElem?_of_lt (List.insertionSort strLeRel photo)
        (List.insertionSort strLeRel atom) i (by omega) (by omega)
    refine ⟨p, a, hp, ha, ?_⟩
    simp [photon_stage, hz]

theorem claim9_witness :
    (["photoat-002_He_000.endf", "photoat-001_H_000.endf"] : List String).length =
      (["atom-002_He_000.endf", "atom-001_H_000.endf"] : List String).length ∧
    ((photon_stage ["photoat-002_He_000.endf", "photoat-001_H_000.endf"]
        ["atom-002_He_000.endf", "atom-001_H_000.endf"]
        (fun p a => p ++ "+" ++ a)).length =
      (["photoat-002_He_000.endf", "photoat-001_H_000.endf"] : List String).length ∧
      ∀ i, i < (["photoat-002_He_000.endf", "photoat-001_H_000.endf"] : List String).length →
        ∃ p a,
          (List.insertionSort strLeRel
            ["photoat-002_He_000.endf", "photoat-001_H_000.endf"])[i]? = some p ∧
          (List.insertionSort strLeRel
            ["atom-002_He_000.endf", "atom-001_H_000.endf"])[i]? = some a ∧
          (photon_stage ["photoat-002_He_000.endf", "photoat-001_H_000.endf"]
            ["atom-002_He_000.endf", "atom-001_H_000.endf"]
            (fun p a => p ++ "+" ++ a))[i]? = some ((p ++ "+" ++ a) ++ ".h5") ) :=
  ⟨rfl,
    claim9_photon_pairing ["photoat-002_He_000.endf", "photoat-001_H_000.endf"]
      ["atom-002_He_000.endf", "atom-001_H_000.endf"] (fun p a => p ++ "+" ++ a) rfl⟩

end JeffData
